import Mathlib

/-!
Verification of `src/sqlite3_utility.py` (techtana/sqlite_utility).

The Python module is shallowly embedded below.  Dynamic Python values are the
inductive `DynValue`; the sqlite backend is a pure table store `DB`; Python
exceptions are the inductive `PyErr`; a function that can raise is embedded as
an `Except PyErr` result (when it only reads state) or as `DB × Option PyErr`
(when it may also write state before raising: Python keeps the side effects
performed up to the raise).
-/

namespace SqliteUtility

/-- A dynamic Python value of the shapes exercised by the module: `None`,
`bool`, `int` and `str` (a string is its list of unicode code points).
Floating point values are outside the embedding. -/
inductive DynValue where
  | pyNone : DynValue
  | pyBool : Bool → DynValue
  | pyInt : Int → DynValue
  | pyStr : List Nat → DynValue
  deriving DecidableEq

/-- Well-formedness of a dynamic value: every code point of a string is a
legal unicode scalar position (`< 0x110000`), as Python guarantees. -/
def WFValue : DynValue → Prop
  | .pyStr s => ∀ c ∈ s, c < 1114112
  | _ => True

instance : DecidablePred WFValue := by
  intro v
  cases v <;> simp only [WFValue] <;> infer_instance

/-- A Python `type` object, as discriminated by `sqlite3_parse_datatypes`. -/
inductive PyType where
  | int | float | str | bool | bytes | noneType | listT | dictT
  deriving DecidableEq

/-- Python `type(v)` for the embedded dynamic values.  Note `type(True)` is
`bool`, not `int`. -/
def pyTypeOf : DynValue → PyType
  | .pyNone => .noneType
  | .pyBool _ => .bool
  | .pyInt _ => .int
  | .pyStr _ => .str

/-- Python exceptions raised by the module (line references in doc comments of
the functions that raise them). -/
inductive PyErr where
  | indexError | valueError | keyError | nameError
  | integrityError | operationalError
  deriving DecidableEq

/-! ## Codec (`binary_encode` / `binary_decode`, lines 49-56)

`binary_encode(data)` is `pickle.dumps(data, 0)` and `binary_decode(data)` is
`pickle.loads(data)`.  We embed CPython's pickle protocol 0 for the value
fragment `DynValue`: `N.` for `None`, `I01\n.` / `I00\n.` for booleans,
`I<dec>\n.` for 32-bit ints and `L<dec>L\n.` for wider ints, and
`V<escaped>\np0\n.` for strings, where `<escaped>` is the string with
`\\ \0 \n \r \x1a` replaced by `\uXXXX` escapes and then encoded with
`raw-unicode-escape` (code points ≥ 256 become `\uXXXX` / `\UXXXXXXXX`).
The decoder parses exactly the single-scalar pickles this encoder emits and
rejects everything else (malformed input yields `none`, the `CodecError`). -/

/-- ASCII decimal digits of a natural number, most significant first. -/
def decDigits (n : Nat) : List Nat :=
  if h : n < 10 then [48 + n]
  else decDigits (n / 10) ++ [48 + n % 10]
decreasing_by
  have : 10 ≤ n := Nat.le_of_not_lt h
  omega

/-- Value of an ASCII decimal digit string, most significant first. -/
def decVal (ds : List Nat) : Nat :=
  ds.foldl (fun acc d => 10 * acc + (d - 48)) 0

/-- Python `repr` of an `int` as ASCII bytes. -/
def decRepr (i : Int) : List Nat :=
  if i < 0 then 45 :: decDigits i.natAbs else decDigits i.toNat

/-- Parse of a nonnegative decimal literal the way `int(s, 0)` accepts it:
a single `0`, or digits without a leading zero.  (Base prefixes such as
`0x`, which the encoder never emits, are rejected.) -/
def parsePosDec (ds : List Nat) : Option Nat :=
  if ds = [] then none
  else if ds = [48] then some 0
  else if ds.head? = some 48 then none
  else if ds.all (fun d => 48 ≤ d && d ≤ 57) then some (decVal ds)
  else none

/-- Parse of a signed decimal literal (the argument line of the `I`/`L`
pickle opcodes). -/
def parseIntLine (ds : List Nat) : Option Int :=
  if ds.head? = some 45 then
    match parsePosDec ds.tail with
    | some n => some (-(n : Int))
    | none => none
  else if ds.head? = some 43 then
    match parsePosDec ds.tail with
    | some n => some ((n : Int))
    | none => none
  else
    match parsePosDec ds with
    | some n => some ((n : Int))
    | none => none

/-- Lowercase ASCII hex digit of a value below 16. -/
def hexDigitChar (d : Nat) : Nat :=
  if d < 10 then 48 + d else 87 + d

/-- Value of an ASCII hex digit (either case), `none` otherwise. -/
def hexDigitVal (c : Nat) : Option Nat :=
  if 48 ≤ c ∧ c ≤ 57 then some (c - 48)
  else if 97 ≤ c ∧ c ≤ 102 then some (c - 87)
  else if 65 ≤ c ∧ c ≤ 70 then some (c - 55)
  else none

/-- Four lowercase hex digits of a value below 65536, most significant
first. -/
def hex4 (n : Nat) : List Nat :=
  [hexDigitChar (n / 4096 % 16), hexDigitChar (n / 256 % 16),
   hexDigitChar (n / 16 % 16), hexDigitChar (n % 16)]

/-- Eight lowercase hex digits of a value below 2^32. -/
def hex8 (n : Nat) : List Nat :=
  hex4 (n / 65536) ++ hex4 (n % 65536)

/-- Parse of four hex digit bytes. -/
def parseHex4 (a b c d : Nat) : Option Nat :=
  match hexDigitVal a, hexDigitVal b, hexDigitVal c, hexDigitVal d with
  | some x, some y, some z, some w => some (4096 * x + 256 * y + 16 * z + w)
  | _, _, _, _ => none

/-- Parse of eight hex digit bytes. -/
def parseHex8 (a b c d e f g h : Nat) : Option Nat :=
  match parseHex4 a b c d, parseHex4 e f g h with
  | some x, some y => some (65536 * x + y)
  | _, _ => none

/-- Bytes of one code point under pickle protocol 0 string escaping:
`\\ \0 \n \r \x1a` become `\u00XX`, other Latin-1 points are a single byte,
and larger points become `\uXXXX` or `\UXXXXXXXX` (`raw-unicode-escape`). -/
def escapeChar (c : Nat) : List Nat :=
  if c = 92 then [92, 117, 48, 48, 53, 99]
  else if c = 0 then [92, 117, 48, 48, 48, 48]
  else if c = 10 then [92, 117, 48, 48, 48, 97]
  else if c = 13 then [92, 117, 48, 48, 48, 100]
  else if c = 26 then [92, 117, 48, 48, 49, 97]
  else if c < 256 then [c]
  else if c < 65536 then 92 :: 117 :: hex4 c
  else 92 :: 85 :: hex8 c

/-- Escaped bytes of a whole string. -/
def escapeStr : List Nat → List Nat
  | [] => []
  | c :: s => escapeChar c ++ escapeStr s

/-- Inverse of the escaping: the `raw-unicode-escape` decoder.  `\u` must be
followed by four hex digits and `\U` by eight (bounded by the unicode range);
a backslash before any other byte is kept literally. -/
def rawUnescape : List Nat → Option (List Nat)
  | [] => some []
  | x :: rest =>
    if x = 92 then
      match hrest : rest with
      | 117 :: a :: b :: c :: d :: rest2 =>
        match parseHex4 a b c d with
        | some cp => (rawUnescape rest2).map (fun t => cp :: t)
        | none => none
      | 85 :: a :: b :: c :: d :: e :: f :: g :: h :: rest2 =>
        match parseHex8 a b c d e f g h with
        | some cp =>
          if cp < 1114112 then (rawUnescape rest2).map (fun t => cp :: t)
          else none
        | none => none
      | 117 :: _ => none
      | 85 :: _ => none
      | other => (rawUnescape other).map (fun t => 92 :: t)
    else (rawUnescape rest).map (fun t => x :: t)
termination_by l => l.length
decreasing_by
  all_goals (try subst hrest)
  all_goals simp_wf
  all_goals omega

/-- Split a byte list at its first newline (`readline`); `none` at end of
input without a newline. -/
def splitLine : List Nat → Option (List Nat × List Nat)
  | [] => none
  | c :: rest =>
    if c = 10 then some ([], rest)
    else (splitLine rest).map (fun p => (c :: p.1, p.2))

/-- `binary_encode(data)` = `pickle.dumps(data, 0)` (line 52). -/
def binary_encode : DynValue → List Nat
  | .pyNone => [78, 46]
  | .pyBool true => [73, 48, 49, 10, 46]
  | .pyBool false => [73, 48, 48, 10, 46]
  | .pyInt n =>
    if -2147483648 ≤ n ∧ n ≤ 2147483647 then 73 :: (decRepr n ++ [10, 46])
    else 76 :: (decRepr n ++ [76, 10, 46])
  | .pyStr s => 86 :: (escapeStr s ++ [10, 112, 48, 10, 46])

/-- Payload of the `I` opcode: a decimal line, with `01`/`00` decoded as the
protocol-0 booleans, followed by the stop opcode. -/
def decodeIntPayload (rest : List Nat) : Option DynValue :=
  match splitLine rest with
  | none => none
  | some (line, rest2) =>
    if rest2.head? = some 46 then
      if line = [48, 49] then some (.pyBool true)
      else if line = [48, 48] then some (.pyBool false)
      else (parseIntLine line).map .pyInt
    else none

/-- Payload of the `L` opcode: a decimal line with an optional trailing `L`,
followed by the stop opcode. -/
def decodeLongPayload (rest : List Nat) : Option DynValue :=
  match splitLine rest with
  | none => none
  | some (line, rest2) =>
    if rest2.head? = some 46 then
      let line2 := if line.getLast? = some 76 then line.dropLast else line
      (parseIntLine line2).map .pyInt
    else none

/-- Payload of the `V` opcode: an escaped line, then an optional `p<digits>`
memo line, then the stop opcode. -/
def decodeUnicodePayload (rest : List Nat) : Option DynValue :=
  match splitLine rest with
  | none => none
  | some (line, rest2) =>
    match rawUnescape line with
    | none => none
    | some s =>
      match rest2 with
      | 112 :: rest3 =>
        match splitLine rest3 with
        | none => none
        | some (mline, rest4) =>
          if mline ≠ [] ∧ mline.all (fun d => 48 ≤ d && d ≤ 57) then
            if rest4.head? = some 46 then some (.pyStr s) else none
          else none
      | 46 :: _ => some (.pyStr s)
      | _ => none

/-- `binary_decode(data)` = `pickle.loads(data)` (line 56) on the
single-scalar pickles produced by `binary_encode`; `none` (pickle's
`UnpicklingError` family) on anything else. -/
def binary_decode (bs : List Nat) : Option DynValue :=
  match bs with
  | [] => none
  | op :: rest =>
    if op = 78 then if rest.head? = some 46 then some .pyNone else none
    else if op = 73 then decodeIntPayload rest
    else if op = 76 then decodeLongPayload rest
    else if op = 86 then decodeUnicodePayload rest
    else none

/-! ## Column-name sanitizer (lines 11-15)

`replace_specialchars2underscore` is `re.sub("-| ", "_", str(string))`: the
pattern matches one character, a hyphen or a space, so the substitution is a
character-wise map. -/

/-- `replace_specialchars2underscore(string)` (lines 11-15). -/
def replace_specialchars2underscore (s : String) : String :=
  ⟨s.data.map (fun c => if c = '-' ∨ c = ' ' then '_' else c)⟩

/-! ## The sqlite backend

The backend is an external collaborator (the `sqlite3` stdlib module); we
model the slice of it the utility exercises: a named-table store where each
table has a column list (name, declared type, not-null flag, primary-key
rank) and rows, `INSERT` enforcing primary-key uniqueness, `CREATE TABLE`
refusing duplicate tables / duplicate or missing columns, and
`PRAGMA table_info` reporting the column metadata. -/

/-- One column as reported by `PRAGMA table_info`: name, declared type,
not-null flag, and 1-based primary-key rank (0 = not part of the key). -/
structure Col where
  name : String
  dtype : String
  notnull : Bool
  pkRank : Nat
  deriving DecidableEq

/-- A stored cell: a native sqlite value, the single-quoted text
`f"'{binary_encode(v)}'"` interpolated by `sqlite3_import_json2table`
(line 245), or a parameter-bound binary blob (`sqlite3.Binary`). -/
inductive CellVal where
  | native : DynValue → CellVal
  | encodedText : List Nat → CellVal
  | blob : List Nat → CellVal
  deriving DecidableEq

/-- A table: schema plus rows (each row is positional, in column order). -/
structure Tbl where
  cols : List Col
  rows : List (List CellVal)
  deriving DecidableEq

/-- The database file: a finite map from table name to table. -/
abbrev DB := List (String × Tbl)

/-- Look a table up by name. -/
def dbGet (db : DB) (t : String) : Option Tbl :=
  match db with
  | [] => none
  | (n, tb) :: rest => if n = t then some tb else dbGet rest t

/-- Replace a table by name. -/
def dbSet (db : DB) (t : String) (tb : Tbl) : DB :=
  match db with
  | [] => []
  | (n, tb2) :: rest =>
    if n = t then (n, tb) :: rest else (n, tb2) :: dbSet rest t tb

/-- Backend `CREATE TABLE name (cols..., PRIMARY KEY (pk...))`: fails
(`sqlite3.OperationalError`) when the table already exists, the column list
is empty or has duplicate names, or the key clause names a column that is
not declared. -/
def createTable (db : DB) (t : String) (cols : List Col) (PK : List String) :
    Except PyErr DB :=
  if (dbGet db t).isSome then .error .operationalError
  else if cols.isEmpty then .error .operationalError
  else if ¬ (cols.map Col.name).Nodup then .error .operationalError
  else if PK.isEmpty then .error .operationalError
  else if ¬ PK.all (fun k => (cols.map Col.name).contains k) then
    .error .operationalError
  else .ok (db ++ [(t, { cols := cols, rows := [] })])

/-- Backend `DROP TABLE name`: fails when the table does not exist. -/
def dropTable (db : DB) (t : String) : Except PyErr DB :=
  if (dbGet db t).isSome then .ok (db.filter (fun p => p.1 ≠ t))
  else .error .operationalError

/-- Backend `INSERT INTO t (all columns) VALUES (vals)`: fails with
`sqlite3.IntegrityError` when the primary-key projection of the new row
already occurs in the table. -/
def insertRow (db : DB) (t : String) (vals : List CellVal) : Except PyErr DB :=
  match dbGet db t with
  | none => .error .operationalError
  | some tb =>
    if vals.length ≠ tb.cols.length then .error .operationalError
    else
      let pkIdx := (List.range tb.cols.length).filter
        (fun i => 0 < ((tb.cols.get? i).map Col.pkRank).getD 0)
      let proj := fun (row : List CellVal) =>
        pkIdx.map (fun i => (row.get? i).getD (.native .pyNone))
      if tb.rows.any (fun r => proj r = proj vals) then .error .integrityError
      else .ok (dbSet db t { tb with rows := tb.rows ++ [vals] })

/-- Backend `PRAGMA table_info(t)` (line 73): one metadata row per column of
an existing table, the empty list otherwise. -/
def pragmaTableInfo (db : DB) (t : String) :
    List (Nat × String × String × Bool × Nat) :=
  match dbGet db t with
  | none => []
  | some tb =>
    (List.range tb.cols.length).filterMap (fun i =>
      (tb.cols.get? i).map (fun c => (i, c.name, c.dtype, c.notnull, c.pkRank)))

/-! ## Schema inspector -/

/-- `sqlite3_get_tableinfo(db_path, table)` (lines 58-83): transposes the
`PRAGMA table_info` rows and projects columns 0,1,2,3,5.  When the backend
reports no rows (no such table) the transpose is the empty tuple and the
subscript `[0]` raises `IndexError`. -/
def sqlite3_get_tableinfo (db : DB) (table : String) :
    Except PyErr (List Nat × List String × List String × List Bool × List Nat) :=
  let ti := pragmaTableInfo db table
  if ti.isEmpty then .error .indexError
  else .ok (ti.map (fun r => r.1), ti.map (fun r => r.2.1),
    ti.map (fun r => r.2.2.1), ti.map (fun r => r.2.2.2.1),
    ti.map (fun r => r.2.2.2.2))

/-- The module-level binding for the name `new_table`: line 89 (and 101)
reads `new_table`, but the module never binds that name — it occurs only as
a parameter of `sqlite3_import_json2table` and `sqlite3_import_pandas2table`,
which does not create a module global.  Python name resolution therefore
fails with `NameError`. -/
def new_table? : Option String := none

/-- Stable insertion of `x` into `l` under `le` (model of Python's stable
`sorted`). -/
def insertLe (le : α → α → Bool) (x : α) : List α → List α
  | [] => [x]
  | y :: ys => if le y x then y :: insertLe le x ys else x :: y :: ys

/-- Stable sort under `le` (model of Python's `sorted`). -/
def sortLe (le : α → α → Bool) : List α → List α
  | [] => []
  | x :: xs => insertLe le x (sortLe le xs)

/-- `sqlite3_get_primarykeys(db_path, table)` (lines 85-95).  Line 89 calls
`sqlite3_get_tableinfo(db_path, new_table)` with the unbound global
`new_table` (see `new_table?`), so every call raises `NameError` before any
query runs; the remaining body (sort the (name, pk) pairs by rank, keep
ranks above zero, fall back to `["rowid"]`) is embedded but unreachable. -/
def sqlite3_get_primarykeys (db : DB) (table : String) :
    Except PyErr (List String) :=
  match new_table? with
  | none => .error .nameError
  | some nt =>
    match sqlite3_get_tableinfo db nt with
    | .error e => .error e
    | .ok info =>
      let pairs := info.2.1.zip info.2.2.2.2
      let PK := ((sortLe (fun a b => a.2 ≤ b.2) pairs).filter
        (fun p => 0 < p.2)).map (fun p => p.1)
      if ¬ PK.isEmpty then .ok PK else .ok ["rowid"]

/-! ## Record writer -/

/-- `sqlite3_add_record(db_path, table, column_vals)` (lines 109-128).
Fetches the schema (line 113, outside the `try`: an `IndexError` for a
missing table propagates).  Inside the `try`: a length mismatch between the
schema's columns and `column_vals` raises `ValueError` before any statement
is built; otherwise the string-interpolated `INSERT` is executed.  The
`except` clause catches every exception from the `try` body, prints a
message, and returns normally — so neither the `ValueError` nor an
`IntegrityError` from the backend ever reaches the caller, and on such a
failure the database is left as it was. -/
def sqlite3_add_record (db : DB) (table : String) (column_vals : List CellVal) :
    DB × Option PyErr :=
  match sqlite3_get_tableinfo db table with
  | .error e => (db, some e)
  | .ok info =>
    if info.2.1.length ≠ column_vals.length then (db, none)
    else
      match insertRow db table column_vals with
      | .ok db2 => (db2, none)
      | .error _ => (db, none)

/-- Backend execution of the `UPDATE t SET c = ? ... WHERE k = ? ...` built
by `sqlite3_update_record_binary`: every row whose cells at the key columns
equal the bound blobs gets the set columns replaced by the bound blobs;
a column name that does not exist fails. -/
def executeUpdate (db : DB) (t : String)
    (sets wheres : List (String × List Nat)) : Except PyErr DB :=
  match dbGet db t with
  | none => .error .operationalError
  | some tb =>
    let names := tb.cols.map Col.name
    if ¬ (sets ++ wheres).all (fun p => names.contains p.1) then
      .error .operationalError
    else
      let idxOf := fun (c : String) => names.findIdx? (fun n => n = c)
      let matches_ := fun (row : List CellVal) =>
        wheres.all (fun p =>
          match idxOf p.1 with
          | some i => (row.get? i).getD (.native .pyNone) = .blob p.2
          | none => false)
      let apply := fun (row : List CellVal) =>
        (List.range row.length).map (fun i =>
          match sets.find? (fun p => idxOf p.1 = some i) with
          | some p => .blob p.2
          | none => (row.get? i).getD (.native .pyNone))
      .ok (dbSet db t { tb with
        rows := tb.rows.map (fun r => if matches_ r then apply r else r) })

/-- `sqlite3_update_record_binary(db_path, table, primary_keys, update_keys)`
(lines 155-186).  Line 159 fetches the schema (an `IndexError` for a missing
table propagates); line 160 calls `sqlite3_get_primarykeys`, which always
raises `NameError` (unbound global `new_table`), so no call ever reaches the
`try` body.  The body — key-set equality check (`ValueError`), unknown
update-column check (`ValueError`), then the parameter-bound `UPDATE` with
`binary_encode`d values — is embedded but unreachable; its `except` clause
re-raises. -/
def sqlite3_update_record_binary (db : DB) (table : String)
    (primary_keys update_keys : List (String × DynValue)) : DB × Option PyErr :=
  match sqlite3_get_tableinfo db table with
  | .error e => (db, some e)
  | .ok info =>
    match sqlite3_get_primarykeys db table with
    | .error e => (db, some e)
    | .ok table_pk_cols =>
      let table_cols := info.2.1
      let pk_cols := primary_keys.map (fun p => p.1)
      let update_cols := update_keys.map (fun p => p.1)
      if sortLe (fun a b => decide (a ≤ b)) table_pk_cols ≠
          sortLe (fun a b => decide (a ≤ b)) pk_cols then
        (db, some .valueError)
      else if ¬ update_cols.all (fun c => table_cols.contains c) then
        (db, some .valueError)
      else
        match executeUpdate db table
          (update_keys.map (fun p => (p.1, binary_encode p.2)))
          (primary_keys.map (fun p => (p.1, binary_encode p.2))) with
        | .ok db2 => (db2, none)
        | .error e => (db, some e)

/-! ## Type mapper -/

/-- `sqlite3_parse_datatypes(dtype)` (lines 188-204): `int` maps to `INT`,
`float` to `REAL`, and every other type object to `""` (sqlite's BLOB
category) — since 2021-05-05 strings are deliberately not mapped to `TEXT`.
(The guard that `dtype` be a `type` object is outside the embedding: the
argument type already enforces it.) -/
def sqlite3_parse_datatypes (dtype : PyType) : String :=
  if dtype = .int then "INT"
  else if dtype = .float then "REAL"
  else ""

/-! ## Table builder (`sqlite3_import_json2table`, lines 206-256) -/

/-- A Python dict as an insertion-ordered association list with the value of
the latest assignment (keys are unique when the dict was built by Python). -/
abbrev Record := List (String × DynValue)

/-- Python `d[k]` / `d.get(k)` on the embedded dict. -/
def dictGet (r : Record) (k : String) : Option DynValue :=
  match r with
  | [] => none
  | (k2, v) :: rest => if k2 = k then some v else dictGet rest k

/-- Python `dict(r, **{k: v})`: a fresh dict equal to `r` with `k` bound to
`v` — at its existing position when present, appended otherwise. -/
def dictSet (r : Record) (k : String) (v : DynValue) : Record :=
  match r with
  | [] => [(k, v)]
  | (k2, v2) :: rest =>
    if k2 = k then (k2, v) :: rest else (k2, v2) :: dictSet rest k v

/-- Line 215 with the enumeration index made explicit:
`[dict(item, **{"rowid": _index}) for _index, item in enumerate(json_list)]`
starting at index `i`. -/
def stampRowidFrom (i : Nat) : List Record → List Record
  | [] => []
  | r :: rest => dictSet r "rowid" (.pyInt i) :: stampRowidFrom (i + 1) rest

/-- Line 215: stamp every record with its 0-based position as `"rowid"`. -/
def stampRowid (l : List Record) : List Record := stampRowidFrom 0 l

/-- The 1-based position of `n` in `PK`, 0 when absent: the primary-key rank
sqlite assigns a column named in the `PRIMARY KEY (...)` clause. -/
def rankIn (PK : List String) (n : String) : Nat :=
  match PK with
  | [] => 0
  | k :: rest =>
    if k = n then 1
    else
      match rankIn rest n with
      | 0 => 0
      | r => r + 1

/-- Lines 221-232: the column descriptors derived from the first record —
name sanitized (line 231), type from the sample value (lines 222-223),
`NOT NULL` exactly for the key columns (line 224), and a 1-based primary-key
rank from the position of the (sanitized) name in the `PRIMARY KEY` clause
of the creation statement (line 233). -/
def buildCols (first : Record) (PK : List String) : List Col :=
  first.map (fun p =>
    { name := replace_specialchars2underscore p.1
      dtype := sqlite3_parse_datatypes (pyTypeOf p.2)
      notnull := decide (p.1 ∈ PK)
      pkRank := rankIn PK (replace_specialchars2underscore p.1) })

/-- Line 241: `[item[key] for key in column_names]`; a record that lacks one
of the first record's keys raises `KeyError`. -/
def extractVals (item : Record) (column_names : List String) :
    Option (List DynValue) :=
  column_names.mapM (fun k => dictGet item k)

/-- Lines 242-247: values for columns whose parsed type is `""` (BLOB) are
replaced by the single-quoted text `f"'{binary_encode(pair[0])}'"`; others
pass through natively. -/
def convertVals (vals : List DynValue) (types_parsed : List String) :
    List CellVal :=
  (vals.zip types_parsed).map (fun p =>
    if p.2 = "" then .encodedText (binary_encode p.1) else .native p.1)

/-- Lines 240-248, the body of the `try`: insert each record in order with
`sqlite3_add_record`, which swallows its own failures; only an error raised
in the loop body itself (a `KeyError` from line 241, or an `IndexError` from
`sqlite3_add_record`'s schema fetch) stops the loop and escapes to the
`except` clause. -/
def importLoop (db : DB) (tbl : String) (column_names types_parsed : List String) :
    List Record → DB × Option PyErr
  | [] => (db, none)
  | item :: rest =>
    match extractVals item column_names with
    | none => (db, some .keyError)
    | some vals =>
      match sqlite3_add_record db tbl (convertVals vals types_parsed) with
      | (db2, none) => importLoop db2 tbl column_names types_parsed rest
      | (db2, some e) => (db2, some e)

/-- Lines 217-256 of `sqlite3_import_json2table`, after the key-default
step: validate the records (they are dicts by the embedding's types), read
the schema off the first record (`IndexError` on an empty list, line 221),
require every key column to occur among the first record's keys
(`ValueError`, lines 227-228), create the table, and bulk-insert; if the
loop raises, the `except` clause (lines 252-256) drops the new table and
swallows the error. -/
def importCore (db : DB) (nt : String) (PK : List String) (jl : List Record) :
    DB × Option PyErr :=
  match jl with
  | [] => (db, some .indexError)
  | first :: _ =>
    let column_names := first.map (fun p => p.1)
    let types_parsed :=
      first.map (fun p => sqlite3_parse_datatypes (pyTypeOf p.2))
    if ¬ PK.all (fun c => column_names.contains c) then (db, some .valueError)
    else
      match createTable db nt (buildCols first PK) PK with
      | .error e => (db, some e)
      | .ok db1 =>
        match importLoop db1 nt column_names types_parsed jl with
        | (db2, none) => (db2, none)
        | (db2, some _) =>
          match dropTable db2 nt with
          | .ok db3 => (db3, none)
          | .error e2 => (db2, some e2)

/-- `sqlite3_import_json2table(db_path, new_table, json_list, PK_list)`
(lines 206-256).  `if not PK_list:` (line 213) treats both `None` and the
empty list as absent: the key defaults to `["rowid"]` and every record is
stamped with its position (lines 214-215). -/
def sqlite3_import_json2table (db : DB) (nt : String) (jl : List Record)
    (PK_list : Option (List String)) : DB × Option PyErr :=
  match PK_list with
  | none => importCore db nt ["rowid"] (stampRowid jl)
  | some [] => importCore db nt ["rowid"] (stampRowid jl)
  | some pks => importCore db nt pks jl

/-! ## Allocation model for the stamping step (line 215)

To express that the caller's dicts are not mutated, the stamping
comprehension is also embedded against an explicit heap: a dict is an
address into a store, `dict(item, **{"rowid": _index})` allocates a fresh
cell at the end of the store, and the comprehension returns the fresh
addresses. -/

/-- Lines 213-215 over an explicit store, from index `i`: each step reads
the dict at the next address, allocates the merged copy as a new cell, and
collects the new address. -/
def stampHeapFrom (h : List Record) (i : Nat) : List Nat → List Record × List Nat
  | [] => (h, [])
  | a :: rest =>
    let d := dictSet ((h.get? a).getD []) "rowid" (.pyInt i)
    let h1 := h ++ [d]
    let res := stampHeapFrom h1 (i + 1) rest
    (res.1, h.length :: res.2)

/-- The stamping comprehension over the explicit store. -/
def stampRowidHeap (h : List Record) (addrs : List Nat) :
    List Record × List Nat :=
  stampHeapFrom h 0 addrs

/-! ## Concrete instances used by the claim theorems -/

/-- An empty database file. -/
def dbEmpty : DB := []

/-- The record `{"a": 1}`. -/
def recA1 : Record := [("a", .pyInt 1)]

/-- A database holding a two-column table `t`. -/
def dbTwoCol : DB :=
  [("t", { cols := [{ name := "a", dtype := "INT", notnull := true, pkRank := 1 },
                    { name := "b", dtype := "", notnull := false, pkRank := 0 }],
           rows := [] })]

/-- A sample value exercising every escaping path of the codec: backslash,
newline, a plain ASCII byte, a BMP code point and an astral code point. -/
def vStrSample : DynValue := .pyStr [97, 92, 10, 955, 128512]

/-- A sample record batch for the rowid-synthesis witness. -/
def jlSample : List Record := [[("a", .pyInt 5)], [("a", .pyInt 6), ("b", .pyStr [120])]]

/-- A one-dict store for the no-mutation witness. -/
def heapSample : List Record := [[("x", .pyInt 7)]]

/-! ## Helper lemmas -/

/-- The schema inspector's only failure mode is the `IndexError` from
subscripting the transpose of an empty `PRAGMA` result. -/
theorem tableinfo_error_eq (db : DB) (t : String) (e : PyErr)
    (h : sqlite3_get_tableinfo db t = .error e) : e = .indexError := by
  unfold sqlite3_get_tableinfo at h
  by_cases hti : (pragmaTableInfo db t).isEmpty
  · rw [if_pos hti] at h
    exact (Except.error.inj h).symm
  · rw [if_neg hti] at h
    exact absurd h (by simp)

/-- The store extension performed by one stamping step never rewrites an
existing cell. -/
theorem stampHeapFrom_preserves (addrs : List Nat) :
    ∀ (h : List Record) (i a : Nat), a < h.length →
      ((stampHeapFrom h i addrs).1).get? a = h.get? a := by
  induction addrs with
  | nil => intro h i a _; rfl
  | cons x rest ih =>
    intro h i a ha
    show ((stampHeapFrom
      (h ++ [dictSet ((h.get? x).getD []) "rowid" (.pyInt i)]) (i + 1) rest).1).get? a
        = h.get? a
    rw [ih _ (i + 1) a (by simp; omega)]
    simp only [List.get?_eq_getElem?]
    exact List.getElem?_append_left ha

/-- `dict(r, **{k: v})` contains the pair `(k, v)`. -/
theorem dictSet_mem (r : Record) (k : String) (v : DynValue) :
    (k, v) ∈ dictSet r k v := by
  induction r with
  | nil => simp [dictSet]
  | cons p rest ih =>
    unfold dictSet
    by_cases hk : p.1 = k
    · rw [if_pos hk, hk]
      exact .head _
    · rw [if_neg hk]
      exact .tail _ ih

/-- Reading back the key just written by `dict(r, **{k: v})` yields `v`. -/
theorem dictGet_dictSet (r : Record) (k : String) (v : DynValue) :
    dictGet (dictSet r k v) k = some v := by
  induction r with
  | nil => simp [dictSet, dictGet]
  | cons p rest ih =>
    unfold dictSet
    by_cases hk : p.1 = k
    · rw [if_pos hk]
      simp [dictGet, hk]
    · rw [if_neg hk]
      simp [dictGet, hk, ih]

/-- Element `j` of the stamping comprehension started at `i` is element `j`
of the input with `"rowid"` bound to `i + j`. -/
theorem stampRowidFrom_get? (l : List Record) :
    ∀ (i j : Nat), (stampRowidFrom i l).get? j =
      (l.get? j).map (fun r => dictSet r "rowid" (.pyInt (i + j))) := by
  induction l with
  | nil => intro i j; rfl
  | cons r rest ih =>
    intro i j
    cases j with
    | zero => rfl
    | succ j2 =>
      show (stampRowidFrom (i + 1) rest).get? j2 = _
      rw [ih (i + 1) j2]
      have : (i + 1 : Int) + j2 = i + (j2 + 1) := by omega
      simp [this]

/-- The stamping comprehension keeps the batch length. -/
theorem stampRowidFrom_length (l : List Record) :
    ∀ i, (stampRowidFrom i l).length = l.length := by
  induction l with
  | nil => intro i; rfl
  | cons r rest ih =>
    intro i
    show (stampRowidFrom (i + 1) rest).length + 1 = rest.length + 1
    rw [ih (i + 1)]

/-! ## Codec lemmas -/

/-- Appending a digit multiplies the accumulated value by ten. -/
theorem decVal_concat (xs : List Nat) (d : Nat) :
    decVal (xs ++ [d]) = 10 * decVal xs + (d - 48) := by
  unfold decVal
  rw [List.foldl_append]
  rfl

/-- The decimal digits of `n` evaluate back to `n`, are ASCII digits, are
nonempty, and have no leading zero unless `n = 0`. -/
theorem decDigits_spec (n : Nat) :
    decVal (decDigits n) = n ∧ (∀ d ∈ decDigits n, 48 ≤ d ∧ d ≤ 57) ∧
    decDigits n ≠ [] ∧ (n ≠ 0 → (decDigits n).head? ≠ some 48) := by
  induction n using Nat.strong_induction_on with
  | _ n ih =>
    by_cases h : n < 10
    · rw [decDigits, dif_pos h]
      refine ⟨by simp [decVal], ?_, by simp, ?_⟩
      · intro d hd
        simp at hd
        omega
      · intro hn hcon
        simp at hcon
        omega
    · rw [decDigits, dif_neg h]
      obtain ⟨ihv, ihd, ihne, ihh⟩ := ih (n / 10) (by omega)
      refine ⟨?_, ?_, by simp, ?_⟩
      · rw [decVal_concat, ihv]
        omega
      · intro d hd
        rcases List.mem_append.mp hd with hd2 | hd2
        · exact ihd d hd2
        · simp at hd2
          omega
      · intro _
        obtain ⟨a, as, hxs⟩ := List.exists_cons_of_ne_nil ihne
        rw [hxs]
        have := ihh (by omega)
        rw [hxs] at this
        simpa using this

/-- `int(s, 0)` applied to the decimal digits of `n` parses back `n`. -/
theorem parsePosDec_decDigits (n : Nat) : parsePosDec (decDigits n) = some n := by
  obtain ⟨hv, hd, hne, hh⟩ := decDigits_spec n
  by_cases h0 : n = 0
  · subst h0
    have h1 : decDigits 0 = [48] := by
      rw [decDigits]
      norm_num
    rw [h1]
    decide
  · unfold parsePosDec
    have hh48 := hh h0
    rw [if_neg hne, if_neg ?z, if_neg hh48, if_pos ?d]
    · rw [hv]
    case z =>
      intro hcon
      rw [hcon] at hh48
      exact hh48 rfl
    case d =>
      simp only [List.all_eq_true]
      intro d hdm
      have := hd d hdm
      simp
      omega

/-- The pickle sign handling: `parseIntLine` inverts `decRepr`. -/
theorem parseIntLine_decRepr (i : Int) : parseIntLine (decRepr i) = some i := by
  by_cases hneg : i < 0
  · have hrepr : decRepr i = 45 :: decDigits i.natAbs := by
      unfold decRepr
      rw [if_pos hneg]
    rw [hrepr]
    unfold parseIntLine
    rw [if_pos (show (45 :: decDigits i.natAbs).head? = some 45 from rfl),
      List.tail_cons, parsePosDec_decDigits]
    show some (-(i.natAbs : Int)) = some i
    congr 1
    omega
  · have hrepr : decRepr i = decDigits i.toNat := by
      unfold decRepr
      rw [if_neg hneg]
    obtain ⟨hv, hd, hne, hh⟩ := decDigits_spec i.toNat
    obtain ⟨a, as, hxs⟩ := List.exists_cons_of_ne_nil hne
    have ha : 48 ≤ a ∧ a ≤ 57 := hd a (by rw [hxs]; exact .head _)
    rw [hrepr]
    unfold parseIntLine
    rw [if_neg ?n45, if_neg ?n43, parsePosDec_decDigits]
    · show some ((i.toNat : Int)) = some i
      congr 1
      omega
    case n45 =>
      rw [hxs]
      intro hcon
      simp at hcon
      omega
    case n43 =>
      rw [hxs]
      intro hcon
      simp at hcon
      omega

/-- No byte of an integer repr is a newline. -/
theorem decRepr_no_newline (i : Int) : ∀ d ∈ decRepr i, d ≠ 10 := by
  intro d hd
  unfold decRepr at hd
  obtain ⟨_, hdig, _, _⟩ := decDigits_spec i.natAbs
  obtain ⟨_, hdig2, _, _⟩ := decDigits_spec i.toNat
  by_cases hneg : i < 0
  · rw [if_pos hneg] at hd
    rcases List.mem_cons.mp hd with h | h
    · omega
    · have := hdig d h
      omega
  · rw [if_neg hneg] at hd
    have := hdig2 d hd
    omega

/-- An integer repr is never the protocol-0 boolean payload `01` or `00`. -/
theorem decRepr_not_bool (i : Int) :
    decRepr i ≠ [48, 49] ∧ decRepr i ≠ [48, 48] := by
  unfold decRepr
  by_cases hneg : i < 0
  · rw [if_pos hneg]
    constructor <;> (intro hcon; have := List.cons.inj hcon; omega)
  · rw [if_neg hneg]
    obtain ⟨hv, hd, hne, hh⟩ := decDigits_spec i.toNat
    by_cases h0 : i.toNat = 0
    · have h1 : decDigits i.toNat = [48] := by
        rw [h0, decDigits]
        norm_num
      rw [h1]
      constructor <;> decide
    · have := hh h0
      constructor <;>
        (intro hcon; rw [hcon] at this; exact this rfl)

/-- A hex digit byte evaluates back to its value. -/
theorem hexDigitVal_hexDigitChar (d : Nat) (hd : d < 16) :
    hexDigitVal (hexDigitChar d) = some d := by
  unfold hexDigitChar hexDigitVal
  by_cases h : d < 10
  · rw [if_pos h, if_pos (by omega)]
    simp only [Option.some.injEq]
    omega
  · rw [if_neg h, if_neg (by omega), if_pos (by omega)]
    simp only [Option.some.injEq]
    omega

/-- Four hex digit bytes evaluate back to their packed value. -/
theorem parseHex4_hexDigitChar (x y z w : Nat) (hx : x < 16) (hy : y < 16)
    (hz : z < 16) (hw : w < 16) :
    parseHex4 (hexDigitChar x) (hexDigitChar y) (hexDigitChar z)
      (hexDigitChar w) = some (4096 * x + 256 * y + 16 * z + w) := by
  unfold parseHex4
  rw [hexDigitVal_hexDigitChar x hx, hexDigitVal_hexDigitChar y hy,
    hexDigitVal_hexDigitChar z hz, hexDigitVal_hexDigitChar w hw]

/-- Eight hex digit bytes evaluate back to their packed value. -/
theorem parseHex8_hexDigitChar (x1 x2 x3 x4 x5 x6 x7 x8 : Nat)
    (h1 : x1 < 16) (h2 : x2 < 16) (h3 : x3 < 16) (h4 : x4 < 16)
    (h5 : x5 < 16) (h6 : x6 < 16) (h7 : x7 < 16) (h8 : x8 < 16) :
    parseHex8 (hexDigitChar x1) (hexDigitChar x2) (hexDigitChar x3)
      (hexDigitChar x4) (hexDigitChar x5) (hexDigitChar x6) (hexDigitChar x7)
      (hexDigitChar x8) =
      some (65536 * (4096 * x1 + 256 * x2 + 16 * x3 + x4) +
        (4096 * x5 + 256 * x6 + 16 * x7 + x8)) := by
  unfold parseHex8
  rw [parseHex4_hexDigitChar x1 x2 x3 x4 h1 h2 h3 h4,
    parseHex4_hexDigitChar x5 x6 x7 x8 h5 h6 h7 h8]

/-- No escaping byte of a code point is a newline. -/
theorem escapeChar_no_newline (c : Nat) : ∀ x ∈ escapeChar c, x ≠ 10 := by
  have hchar : ∀ d, hexDigitChar d ≠ 10 := by
    intro d
    unfold hexDigitChar
    split_ifs <;> omega
  intro x hx
  unfold escapeChar at hx
  split_ifs at hx with h1 h2 h3 h4 h5 h6 h7
  · simp at hx; omega
  · simp at hx; omega
  · simp at hx; omega
  · simp at hx; omega
  · simp at hx; omega
  · simp at hx; omega
  · simp [hex4] at hx
    rcases hx with h | h | h | h | h | h <;>
      first
        | omega
        | (rw [h]; exact hchar _)
  · simp [hex8, hex4] at hx
    rcases hx with h | h | h | h | h | h | h | h | h | h <;>
      first
        | omega
        | (rw [h]; exact hchar _)

/-- No escaping byte of a string is a newline. -/
theorem escapeStr_no_newline (s : List Nat) : ∀ x ∈ escapeStr s, x ≠ 10 := by
  induction s with
  | nil => intro x hx; simp [escapeStr] at hx
  | cons c cs ih =>
    intro x hx
    rcases List.mem_append.mp hx with h | h
    · exact escapeChar_no_newline c x h
    · exact ih x h

/-- `readline` splits at the first newline. -/
theorem splitLine_append (pre post : List Nat) (hpre : ∀ x ∈ pre, x ≠ 10) :
    splitLine (pre ++ 10 :: post) = some (pre, post) := by
  induction pre with
  | nil => simp [splitLine]
  | cons c rest ih =>
    have hc : c ≠ 10 := hpre c (.head _)
    show splitLine (c :: (rest ++ 10 :: post)) = _
    unfold splitLine
    rw [if_neg hc, ih (fun x hx => hpre x (.tail _ hx))]
    rfl

/-- One escaped code point unescapes back in front of any remainder. -/
theorem rawUnescape_escapeChar (c : Nat) (hc : c < 1114112) (rest : List Nat) :
    rawUnescape (escapeChar c ++ rest) =
      (rawUnescape rest).map (fun t => c :: t) := by
  unfold escapeChar
  split_ifs with h1 h2 h3 h4 h5 h6 h7
  · have hp : parseHex4 48 48 53 99 = some 92 := rfl
    subst h1
    rw [rawUnescape.eq_def]
    simp [hp]
  · have hp : parseHex4 48 48 48 48 = some 0 := rfl
    subst h2
    rw [rawUnescape.eq_def]
    simp [hp]
  · have hp : parseHex4 48 48 48 97 = some 10 := rfl
    subst h3
    rw [rawUnescape.eq_def]
    simp [hp]
  · have hp : parseHex4 48 48 48 100 = some 13 := rfl
    subst h4
    rw [rawUnescape.eq_def]
    simp [hp]
  · have hp : parseHex4 48 48 49 97 = some 26 := rfl
    subst h5
    rw [rawUnescape.eq_def]
    simp [hp]
  · show rawUnescape (c :: rest) = Option.map (fun t => c :: t) (rawUnescape rest)
    rw [rawUnescape.eq_def]
    simp [h1]
  · have hp := parseHex4_hexDigitChar (c / 4096 % 16) (c / 256 % 16)
      (c / 16 % 16) (c % 16) (by omega) (by omega) (by omega) (by omega)
    have hval : 4096 * (c / 4096 % 16) + 256 * (c / 256 % 16) +
        16 * (c / 16 % 16) + c % 16 = c := by omega
    rw [hval] at hp
    rw [show 92 :: 117 :: hex4 c ++ rest =
      92 :: 117 :: (hexDigitChar (c / 4096 % 16) :: hexDigitChar (c / 256 % 16) ::
        hexDigitChar (c / 16 % 16) :: hexDigitChar (c % 16) :: rest) from by
        simp [hex4]]
    rw [rawUnescape.eq_def]
    simp [hp]
  · have hp := parseHex8_hexDigitChar
      (c / 65536 / 4096 % 16) (c / 65536 / 256 % 16) (c / 65536 / 16 % 16)
      (c / 65536 % 16) (c % 65536 / 4096 % 16) (c % 65536 / 256 % 16)
      (c % 65536 / 16 % 16) (c % 65536 % 16)
      (by omega) (by omega) (by omega) (by omega)
      (by omega) (by omega) (by omega) (by omega)
    have hval : 65536 * (4096 * (c / 65536 / 4096 % 16) +
        256 * (c / 65536 / 256 % 16) + 16 * (c / 65536 / 16 % 16) +
        c / 65536 % 16) + (4096 * (c % 65536 / 4096 % 16) +
        256 * (c % 65536 / 256 % 16) + 16 * (c % 65536 / 16 % 16) +
        c % 65536 % 16) = c := by omega
    rw [hval] at hp
    rw [show 92 :: 85 :: hex8 c ++ rest =
      92 :: 85 :: (hexDigitChar (c / 65536 / 4096 % 16) ::
        hexDigitChar (c / 65536 / 256 % 16) :: hexDigitChar (c / 65536 / 16 % 16) ::
        hexDigitChar (c / 65536 % 16) :: hexDigitChar (c % 65536 / 4096 % 16) ::
        hexDigitChar (c % 65536 / 256 % 16) :: hexDigitChar (c % 65536 / 16 % 16) ::
        hexDigitChar (c % 65536 % 16) :: rest) from by
        simp [hex8, hex4]]
    rw [rawUnescape.eq_def]
    simp [hp, hc]

/-- A fully escaped well-formed string unescapes back to itself. -/
theorem rawUnescape_escapeStr (s : List Nat) (hs : ∀ c ∈ s, c < 1114112) :
    rawUnescape (escapeStr s) = some s := by
  induction s with
  | nil => simp [escapeStr, rawUnescape]
  | cons c cs ih =>
    show rawUnescape (escapeChar c ++ escapeStr cs) = some (c :: cs)
    rw [rawUnescape_escapeChar c (hs c (.head _)) (escapeStr cs),
      ih (fun x hx => hs x (.tail _ hx))]
    rfl

/-! ## Claim theorems -/

/-- C1: the Codec round-trip law.  For every well-formed value of a
supported dynamic type, decoding its encoding yields the value back, and
re-encoding the decoded value yields the original byte string, so both
composites are the identity on the encoder's domain and image. -/
theorem binary_codec_roundtrip (v : DynValue) (b : List Nat)
    (hwf : WFValue v) (henc : binary_encode v = b) :
    binary_decode b = some v ∧
    (binary_decode b).map binary_encode = some b := by
  subst henc
  have hdec : binary_decode (binary_encode v) = some v := by
    cases v with
    | pyNone => decide
    | pyBool bb => cases bb <;> decide
    | pyInt n =>
      by_cases hr : -2147483648 ≤ n ∧ n ≤ 2147483647
      · have henc2 : binary_encode (.pyInt n) = 73 :: (decRepr n ++ [10, 46]) := by
          simp only [binary_encode, if_pos hr]
        have hsplit : splitLine (decRepr n ++ 10 :: [46]) =
            some (decRepr n, [46]) :=
          splitLine_append _ _ (decRepr_no_newline n)
        have hstep : binary_decode (73 :: (decRepr n ++ [10, 46])) =
            decodeIntPayload (decRepr n ++ [10, 46]) := by
          rw [binary_decode]
          norm_num
        rw [henc2, hstep]
        unfold decodeIntPayload
        rw [show decRepr n ++ [10, 46] = decRepr n ++ 10 :: [46] from rfl,
          hsplit]
        simp [(decRepr_not_bool n).1, (decRepr_not_bool n).2,
          parseIntLine_decRepr]
      · have henc2 : binary_encode (.pyInt n) =
            76 :: (decRepr n ++ [76, 10, 46]) := by
          simp only [binary_encode, if_neg hr]
        have h10 : ∀ x ∈ decRepr n ++ [76], x ≠ 10 := by
          intro x hx
          rcases List.mem_append.mp hx with h | h
          · exact decRepr_no_newline n x h
          · simp at h
            omega
        have hsplit : splitLine ((decRepr n ++ [76]) ++ 10 :: [46]) =
            some (decRepr n ++ [76], [46]) :=
          splitLine_append _ _ h10
        have hstep : binary_decode (76 :: (decRepr n ++ [76, 10, 46])) =
            decodeLongPayload (decRepr n ++ [76, 10, 46]) := by
          rw [binary_decode]
          norm_num
        rw [henc2, hstep]
        unfold decodeLongPayload
        rw [show decRepr n ++ [76, 10, 46] =
          (decRepr n ++ [76]) ++ 10 :: [46] from by simp, hsplit]
        simp [List.getLast?_concat, List.dropLast_concat, parseIntLine_decRepr]
    | pyStr s =>
      have hwfs : ∀ c ∈ s, c < 1114112 := hwf
      have hsplit : splitLine (escapeStr s ++ 10 :: [112, 48, 10, 46]) =
          some (escapeStr s, [112, 48, 10, 46]) :=
        splitLine_append _ _ (escapeStr_no_newline s)
      have hstep : binary_decode (86 :: (escapeStr s ++ [10, 112, 48, 10, 46])) =
          decodeUnicodePayload (escapeStr s ++ [10, 112, 48, 10, 46]) := by
        rw [binary_decode]
        norm_num
      show binary_decode (86 :: (escapeStr s ++ [10, 112, 48, 10, 46])) =
        some (.pyStr s)
      rw [hstep]
      unfold decodeUnicodePayload
      rw [show escapeStr s ++ [10, 112, 48, 10, 46] =
        escapeStr s ++ 10 :: [112, 48, 10, 46] from rfl, hsplit]
      simp [rawUnescape_escapeStr s hwfs, splitLine]
  exact ⟨hdec, by rw [hdec]; rfl⟩

/-- C1 witness: the round trip at a concrete string exercising a plain
byte, a backslash, a newline, a BMP code point and an astral code point. -/
theorem binary_codec_roundtrip_witness :
    WFValue vStrSample ∧
    (binary_decode (binary_encode vStrSample) = some vStrSample ∧
     (binary_decode (binary_encode vStrSample)).map binary_encode =
       some (binary_encode vStrSample)) :=
  ⟨by decide, binary_codec_roundtrip vStrSample _ (by decide) rfl⟩

/-- C2: the claim says a row-insertion failure during the bulk load makes
`sqlite3_import_json2table` drop the new table, so `sqlite3_get_tableinfo`
then fails.  Evaluating the code: importing `[{"a": 1}, {"a": 1}]` with key
`["a"]` makes the second insert violate primary-key uniqueness, yet
`sqlite3_add_record` swallows the `IntegrityError`, the import returns
without error, the table survives holding the first row, and the subsequent
describe succeeds. -/
theorem import_insert_failure_keeps_table :
    (sqlite3_import_json2table dbEmpty "t" [recA1, recA1] (some ["a"])).2 = none ∧
    dbGet (sqlite3_import_json2table dbEmpty "t" [recA1, recA1] (some ["a"])).1 "t" =
      some { cols := [{ name := "a", dtype := "INT", notnull := true, pkRank := 1 }],
             rows := [[.native (.pyInt 1)]] } ∧
    (sqlite3_get_tableinfo
      (sqlite3_import_json2table dbEmpty "t" [recA1, recA1] (some ["a"])).1 "t").isOk
      = true := by
  refine ⟨rfl, rfl, rfl⟩

/-- C3 counterexample: table `t` declares two columns but the record
supplies one value, yet the call reports no failure at all — the internal
`ValueError` is caught and printed by `sqlite3_add_record` itself, so the
call does not fail with any error. -/
theorem add_record_mismatch_counterexample :
    sqlite3_get_tableinfo dbTwoCol "t" =
      .ok ([0, 1], ["a", "b"], ["INT", ""], [true, false], [1, 0]) ∧
    sqlite3_add_record dbTwoCol "t" [.native (.pyInt 1)] = (dbTwoCol, none) := by
  refine ⟨rfl, rfl⟩

/-- C3 (amended): when the record does not supply exactly as many values as
there are declared columns, the `ValueError` is raised before any statement
is built, so nothing is inserted and the database is unchanged — but the
exception is caught and printed inside `sqlite3_add_record`, which returns
normally instead of propagating the error to the caller. -/
theorem add_record_mismatch_no_statement (db : DB) (table : String)
    (vals : List CellVal)
    (info : List Nat × List String × List String × List Bool × List Nat)
    (h : sqlite3_get_tableinfo db table = .ok info)
    (hlen : info.2.1.length ≠ vals.length) :
    sqlite3_add_record db table vals = (db, none) := by
  unfold sqlite3_add_record
  rw [h]
  simp only [if_pos hlen]

/-- C3 witness: a concrete mismatched insert leaves the database unchanged
and reports nothing. -/
theorem add_record_mismatch_no_statement_witness :
    sqlite3_add_record dbTwoCol "t"
      [.native (.pyInt 1), .native (.pyInt 2), .native (.pyInt 3)] =
      (dbTwoCol, none) :=
  add_record_mismatch_no_statement dbTwoCol "t" _ _ rfl (by decide)

/-- C4: with the key argument absent, every record of the batch is stamped
with its dense 0-based position under the synthesized key `"rowid"`, the
schema derived from the (stamped) first record contains an integer column
`"rowid"` of primary-key rank 1, it is the only column with positive rank,
and the import proceeds exactly as `importCore` on the stamped batch with
key list `["rowid"]`. -/
theorem import_synthesizes_rowid (jl : List Record) (i : Nat)
    (hi : i < jl.length) :
    (stampRowid jl).length = jl.length ∧
    (∃ r, (stampRowid jl).get? i = some r ∧
      dictGet r "rowid" = some (.pyInt i)) ∧
    (∀ first rest, stampRowid jl = first :: rest →
      (∃ c ∈ buildCols first ["rowid"],
        c.name = "rowid" ∧ c.dtype = "INT" ∧ c.pkRank = 1) ∧
      ∀ c ∈ buildCols first ["rowid"], 0 < c.pkRank → c.name = "rowid") ∧
    (∀ db nt, sqlite3_import_json2table db nt jl none =
      importCore db nt ["rowid"] (stampRowid jl)) := by
  refine ⟨stampRowidFrom_length jl 0, ?_, ?_, fun db nt => rfl⟩
  · have hget := stampRowidFrom_get? jl 0 i
    have : ∃ r0, jl.get? i = some r0 := by
      cases hr : jl.get? i with
      | none => exact absurd (List.get?_eq_none.mp hr) (by omega)
      | some r0 => exact ⟨r0, rfl⟩
    obtain ⟨r0, hr0⟩ := this
    refine ⟨dictSet r0 "rowid" (.pyInt i), ?_, dictGet_dictSet r0 _ _⟩
    rw [show stampRowid jl = stampRowidFrom 0 jl from rfl, hget, hr0]
    simp
  · intro first rest hfr
    constructor
    · -- the stamped first record contains a "rowid" pair
      have hfirst : ∃ r0, first = dictSet r0 "rowid" (.pyInt 0) := by
        cases jl with
        | nil => exact absurd hfr (by simp [stampRowid, stampRowidFrom])
        | cons r0 rest0 =>
          refine ⟨r0, ?_⟩
          have : stampRowid (r0 :: rest0) =
              dictSet r0 "rowid" (.pyInt 0) :: stampRowidFrom 1 rest0 := rfl
          rw [this] at hfr
          exact (List.cons.inj hfr).1.symm
      obtain ⟨r0, hr0⟩ := hfirst
      have hmem : ("rowid", DynValue.pyInt 0) ∈ first := by
        rw [hr0]; exact dictSet_mem r0 _ _
      exact ⟨{ name := "rowid", dtype := "INT", notnull := true, pkRank := 1 },
        List.mem_map.mpr ⟨("rowid", DynValue.pyInt 0), hmem, by decide⟩,
        rfl, rfl, rfl⟩
    · intro c hc hrank
      obtain ⟨p, _, hp⟩ := List.mem_map.mp hc
      by_cases hname : replace_specialchars2underscore p.1 = "rowid"
      · rw [← hp]
        exact hname
      · exfalso
        rw [← hp] at hrank
        have hrank2 : 0 < rankIn ["rowid"] (replace_specialchars2underscore p.1) :=
          hrank
        have h0 : rankIn ["rowid"] (replace_specialchars2underscore p.1) = 0 := by
          unfold rankIn
          rw [if_neg (fun h => hname h.symm)]
          rfl
        omega

/-- C4 witness: at the concrete two-record batch, record 1 is stamped with
identity value 1. -/
theorem import_synthesizes_rowid_witness :
    ∃ r, (stampRowid jlSample).get? 1 = some r ∧
      dictGet r "rowid" = some (.pyInt 1) :=
  (import_synthesizes_rowid jlSample 1 (by decide)).2.1

/-- C5: the claim says `sqlite3_get_primarykeys` returns the table's key
columns ordered by rank, or `["rowid"]` when no key exists.  The code
instead reads the module global `new_table` (line 89), which is never bound,
so every call — whatever the database holds — raises `NameError` before the
schema query runs. -/
theorem get_primarykeys_always_nameerror (db : DB) (table : String) :
    sqlite3_get_primarykeys db table = .error .nameError := rfl

/-- C6: the claim says mismatched key sets fail with `KeyMismatchError` and
unknown update columns with `UnknownColumnError`, before any statement.  In
the code, line 160 calls `sqlite3_get_primarykeys`, which always raises
`NameError` (unbound global `new_table`), so every call — whatever the
arguments — fails with `IndexError` (missing table) or `NameError` before
any validation or statement, and the database is never touched. -/
theorem update_record_binary_never_validates (db : DB) (table : String)
    (primary_keys update_keys : List (String × DynValue)) :
    (sqlite3_update_record_binary db table primary_keys update_keys).1 = db ∧
    ((sqlite3_update_record_binary db table primary_keys update_keys).2 =
        some .indexError ∨
     (sqlite3_update_record_binary db table primary_keys update_keys).2 =
        some .nameError) := by
  unfold sqlite3_update_record_binary
  cases h : sqlite3_get_tableinfo db table with
  | error e =>
    rw [tableinfo_error_eq db table e h]
    exact ⟨rfl, .inl rfl⟩
  | ok info =>
    exact ⟨rfl, .inr rfl⟩

/-- C7: the type mapper sends the `int` type to the Integer category, the
`float` type to the Real category, and every other type object — including
`str` — to `""`, sqlite's empty/BLOB (Opaque) category; the code offers no
opt-in to a native `TEXT` mapping. -/
theorem parse_datatypes_classification :
    sqlite3_parse_datatypes .int = "INT" ∧
    sqlite3_parse_datatypes .float = "REAL" ∧
    sqlite3_parse_datatypes .str = "" ∧
    ∀ t : PyType, t ≠ .int → t ≠ .float → sqlite3_parse_datatypes t = "" := by
  refine ⟨rfl, rfl, rfl, ?_⟩
  intro t h1 h2
  simp [sqlite3_parse_datatypes, h1, h2]

/-- C7 witness: the `bytes` type is classified into the Opaque category. -/
theorem parse_datatypes_classification_witness :
    sqlite3_parse_datatypes .bytes = "" :=
  parse_datatypes_classification.2.2.2 .bytes (by decide) (by decide)

/-- C8: when the backend reports no such table (`PRAGMA table_info` returns
no rows), `sqlite3_get_tableinfo` fails — the transpose of the empty result
is empty and subscripting it raises (`IndexError`, the embedding of the
spec's `TableNotFound`). -/
theorem get_tableinfo_missing_table (db : DB) (table : String)
    (h : dbGet db table = none) :
    sqlite3_get_tableinfo db table = .error .indexError := by
  unfold sqlite3_get_tableinfo pragmaTableInfo
  rw [h]
  rfl

/-- C8 witness: describing any table of the empty database fails. -/
theorem get_tableinfo_missing_table_witness :
    sqlite3_get_tableinfo dbEmpty "t" = .error .indexError :=
  get_tableinfo_missing_table dbEmpty "t" rfl

/-- C9: the column-name sanitizer is idempotent, and its output never
contains a space or a hyphen. -/
theorem sanitize_idempotent_and_clean (s : String) :
    replace_specialchars2underscore (replace_specialchars2underscore s) =
      replace_specialchars2underscore s ∧
    ∀ c ∈ (replace_specialchars2underscore s).data, c ≠ ' ' ∧ c ≠ '-' := by
  constructor
  · unfold replace_specialchars2underscore
    apply congrArg
    show (s.data.map _).map _ = _
    rw [List.map_map]
    apply List.map_congr_left
    intro c _
    by_cases hc : c = '-' ∨ c = ' '
    · simp [hc]
    · simp [hc, Function.comp]
  · intro c hc
    unfold replace_specialchars2underscore at hc
    have : c ∈ s.data.map (fun c => if c = '-' ∨ c = ' ' then '_' else c) := hc
    obtain ⟨a, _, ha⟩ := List.mem_map.mp this
    by_cases hsp : a = '-' ∨ a = ' '
    · rw [if_pos hsp] at ha
      rw [← ha]
      exact ⟨by decide, by decide⟩
    · rw [if_neg hsp] at ha
      rw [← ha]
      push_neg at hsp
      exact ⟨fun h => hsp.2 h, fun h => hsp.1 h⟩

/-- C9 witness: the sanitizer applied to a concrete name with a hyphen and a
space, twice, and the cleanliness of one of its output characters. -/
theorem sanitize_idempotent_and_clean_witness :
    replace_specialchars2underscore (replace_specialchars2underscore "a-b c") =
      replace_specialchars2underscore "a-b c" ∧
    ('_' ≠ ' ' ∧ '_' ≠ '-') :=
  ⟨(sanitize_idempotent_and_clean "a-b c").1,
   (sanitize_idempotent_and_clean "a-b c").2 '_' (by decide)⟩

/-- C10: the stamping comprehension of `sqlite3_import_json2table` (line
215) allocates fresh dicts and never writes to an existing store cell, so
after the call every original record holds exactly the pairs it held
before. -/
theorem stampRowidHeap_no_mutation (h : List Record) (addrs : List Nat)
    (a : Nat) (ha : a < h.length) :
    ((stampRowidHeap h addrs).1).get? a = h.get? a :=
  stampHeapFrom_preserves addrs h 0 a ha

/-- C10 witness: stamping twice from the one-dict store leaves cell 0
untouched. -/
theorem stampRowidHeap_no_mutation_witness :
    ((stampRowidHeap heapSample [0, 0]).1).get? 0 = heapSample.get? 0 :=
  stampRowidHeap_no_mutation heapSample [0, 0] 0 (by decide)

end SqliteUtility
